import Mathlib

/-!
Shallow embedding of the `useCustomFetch` data-fetching layer
(`src/unnamed/part_000`): a wrapper around a fetch lifecycle that injects
authentication headers, serializes query parameters and JSON bodies, and
validates responses against declared schemas.

The file contains two modules separated by a document marker: the current
`useCustomFetch` module (lines 1-365) and an older appended copy of the same
module (lines 366-503).  Definitions below follow the current module; the
older module's query serializer is embedded separately in the
`OldUseCustomFetch` namespace.

JavaScript values that flow through the layer are modelled as follows:
machine numbers as `Int`, records as insertion-ordered association lists
(`Object.entries` order), thrown exceptions as `Except JsError`, and the
`console` logging sink as an accumulated `List String`.
-/

/-- `RequestInput = string | number | boolean` (source line 5). -/
inductive RequestInput where
  | str (s : String)
  | num (n : Int)
  | bool (b : Bool)
deriving DecidableEq, Repr

/-- `RequestInputs = RequestInput | RequestInput[]` (source line 6), widened
with the nullish values `null` and `undefined` that the untyped older module
(`Record<string, any>`) and `removeNullishInObject`'s checks admit at
runtime. -/
inductive JsInput where
  | prim (p : RequestInput)
  | arr (xs : List RequestInput)
  | null
  | undefined
deriving DecidableEq, Repr

/-- JavaScript truthiness of a scalar `RequestInput` (the `if (value)` test
in `generateQueryString`, line 161): empty string, zero and `false` are
falsy. -/
def truthy : RequestInput → Bool
  | .str s => s ≠ ""
  | .num n => n ≠ 0
  | .bool b => b

/-- `el.toString()` on a scalar value, as JavaScript renders it. -/
def jsToString : RequestInput → String
  | .str s => s
  | .num n => toString n
  | .bool b => cond b "true" "false"

/-- Characters the `URLSearchParams` serializer leaves unescaped
(`application/x-www-form-urlencoded`): ASCII alphanumerics and `*-._`.
Models the host's `URLSearchParams.toString` builtin, external to the
repository. -/
def isUrlSafeChar (c : Char) : Bool :=
  c.isAlpha || c.isDigit || c == '*' || c == '-' || c == '.' || c == '_'

/-- Uppercase hex digit for a value below 16. -/
def hexDigitChar (n : Nat) : Char :=
  "0123456789ABCDEF".toList.getD n '0'

/-- Percent-encodes a single byte as `%XX`. -/
def percentEncodeByte (n : Nat) : String :=
  "%" ++ String.singleton (hexDigitChar (n / 16)) ++ String.singleton (hexDigitChar (n % 16))

/-- `application/x-www-form-urlencoded` encoding of one character: safe
characters pass through, space becomes `+`, anything else is the
percent-encoding of its UTF-8 bytes. -/
def formUrlEncodeChar (c : Char) : String :=
  if isUrlSafeChar c then String.singleton c
  else if c == ' ' then "+"
  else String.join (((String.singleton c).toUTF8.toList).map (fun b => percentEncodeByte b.toNat))

/-- `application/x-www-form-urlencoded` encoding of a string. -/
def formUrlEncode (s : String) : String :=
  String.join (s.toList.map formUrlEncodeChar)

/-- The ordered multiset of `(key, value)` pairs accumulated by the
`query.append` calls in `generateQueryString` (source lines 156-164): one
pair per array element under the same key, truthy scalars as a single pair,
falsy scalars and nullish values skipped. -/
def collectParams (queryData : List (String × JsInput)) : List (String × String) :=
  queryData.flatMap (fun kv =>
    match kv.2 with
    | .arr xs => xs.map (fun el => (kv.1, jsToString el))
    | .prim p => if truthy p then [(kv.1, jsToString p)] else []
    | .null => []
    | .undefined => [])

/-- `URLSearchParams.toString()`: pairs rendered `key=value` with form-url
encoding, joined by `&`.  Models the host builtin, external to the
repository. -/
def urlSearchParamsToString (ps : List (String × String)) : String :=
  String.intercalate "&" (ps.map (fun p => formUrlEncode p.1 ++ "=" ++ formUrlEncode p.2))

/-- `generateQueryString` (source lines 153-168): serializes a query mapping
to a query string, prefixed with `?` when non-empty. -/
def generateQueryString (queryData : List (String × JsInput)) : String :=
  let queryString := urlSearchParamsToString (collectParams queryData)
  if queryString.length > 0 then "?" ++ queryString else ""

/-- `removeNullishInObject` (source lines 196-197): drops entries whose
value is the empty string, `undefined` or `null`. -/
def removeNullishInObject (obj : List (String × JsInput)) : List (String × JsInput) :=
  obj.filter (fun p =>
    p.2 != JsInput.prim (.str "") && p.2 != JsInput.undefined && p.2 != JsInput.null)

/-- Minimal JSON escaping of a string for `JSON.stringify` (backslash and
double quote).  Models the host builtin, external to the repository. -/
def jsonQuote (s : String) : String :=
  "\"" ++ String.join (s.toList.map (fun c =>
    if c = '"' then "\\\"" else if c = '\\' then "\\\\" else String.singleton c)) ++ "\""

/-- `JSON.stringify` of one scalar value. -/
def jsonStringifyPrim : RequestInput → String
  | .str s => jsonQuote s
  | .num n => toString n
  | .bool b => cond b "true" "false"

/-- `JSON.stringify` of one record value; `undefined` entries are omitted
(`none`). -/
def jsonStringifyInput : JsInput → Option String
  | .prim p => some (jsonStringifyPrim p)
  | .arr xs => some ("[" ++ String.intercalate "," (xs.map jsonStringifyPrim) ++ "]")
  | .null => some "null"
  | .undefined => none

/-- `JSON.stringify` of a record (insertion order).  Models the host
builtin, external to the repository. -/
def jsonStringify (obj : List (String × JsInput)) : String :=
  "\x7b" ++ String.intercalate ","
    (obj.filterMap (fun p => (jsonStringifyInput p.2).map (fun v => jsonQuote p.1 ++ ":" ++ v)))
  ++ "\x7d"

/-- `ApiErrorStatus` (source lines 8-12). -/
inductive ApiErrorStatus where
  | TYPE_ERROR
  | SERVER_ERROR
  | ABORT_ERROR
deriving DecidableEq, Repr

/-- The string value of an `ApiErrorStatus` enum member. -/
def ApiErrorStatus.value : ApiErrorStatus → String
  | .TYPE_ERROR => "TYPE_ERROR"
  | .SERVER_ERROR => "SERVER_ERROR"
  | .ABORT_ERROR => "ABORT_ERROR"

/-- A JavaScript exception thrown by the middleware layer: `TypeError`
(thrown explicitly by the schema validators) or the `SyntaxError` that the
host's `JSON.parse` throws on invalid input. -/
inductive JsError where
  | typeError (msg : String)
  | parseError (msg : String)
deriving DecidableEq, Repr

/-- A JavaScript value as seen by the schema validators and by `JSON.parse`
(the `data` field of the after-fetch and error contexts is `any`), restricted
to the scalar fragment: since the validators treat schemas as opaque
`safeParse` predicates, structured values add nothing to the properties
proved here. -/
inductive JsData where
  | str (s : String)
  | num (n : Int)
  | bool (b : Bool)
  | null
deriving DecidableEq, Repr

/-- The `typeof ctx.data === "string"` test (source line 338). -/
def JsData.isString : JsData → Bool
  | .str _ => true
  | _ => false

/-- JSON whitespace. -/
def isJsonWs (c : Char) : Bool :=
  c = ' ' || c = '\t' || c = '\n' || c = '\r'

/-- Strips leading and trailing JSON whitespace from a character list. -/
def trimChars (cs : List Char) : List Char :=
  ((cs.dropWhile isJsonWs).reverse.dropWhile isJsonWs).reverse

/-- Whether a character list is a JSON integer numeral (optional minus,
digits, no redundant leading zero). -/
def isJsonIntChars (cs : List Char) : Bool :=
  let core := match cs with
    | '-' :: rest => rest
    | l => l
  core ≠ [] && core.all Char.isDigit && (core = ['0'] || core.head? ≠ some '0')

/-- Numeric value of a digit list. -/
def digitsToNat (cs : List Char) : Nat :=
  cs.foldl (fun acc c => 10 * acc + (c.toNat - '0'.toNat)) 0

/-- Integer value of a numeral character list. -/
def charsToInt (cs : List Char) : Int :=
  match cs with
  | '-' :: rest => -(digitsToNat rest : Int)
  | l => (digitsToNat l : Int)

/-- Model of the host's `JSON.parse` builtin (external to the repository),
on the scalar fragment of JSON: surrounding whitespace, `null`, booleans,
integer numerals and escape-free string literals; everything else is
rejected (`none` models the thrown `SyntaxError`).  The development only
relies on this model where `JSON.parse` demonstrably fails, e.g. on the
empty string. -/
def jsonParse (s : String) : Option JsData :=
  let t := trimChars s.toList
  if t = "null".toList then some .null
  else if t = "true".toList then some (.bool true)
  else if t = "false".toList then some (.bool false)
  else if isJsonIntChars t then some (.num (charsToInt t))
  else
    match t with
    | '"' :: rest =>
      if rest ≠ [] && rest.getLast? = some '"'
          && rest.dropLast.all (fun c => c ≠ '"' && c ≠ '\\') then
        some (.str (String.mk rest.dropLast))
      else none
    | _ => none

/-- A zod schema, abstracted to its `safeParse` success predicate: `schema d
= true` exactly when `schema.safeParse(d).success` holds. -/
def ZodSchema : Type := JsData → Bool

/-- The `RequestInit`-like options record of a before-fetch context:
headers and body are what the middleware touches. -/
structure FetchOptions where
  headers : List (String × String)
  body : Option String
deriving DecidableEq, Repr

/-- `BeforeFetchContext` (from `@vueuse/core`): the outgoing url, the fetch
options, and a `cancel` operation; `cancelled` records whether `ctx.cancel()`
has been invoked (no network call is issued once it is `true`). -/
structure BeforeFetchContext where
  url : String
  options : FetchOptions
  cancelled : Bool
deriving DecidableEq, Repr

/-- The raw `Response` object, abstracted to the only field the middleware
reads: its `ok` status. -/
structure Response where
  ok : Bool
deriving DecidableEq, Repr

/-- `AfterFetchContext` (from `@vueuse/core`): parsed response data and the
raw response. -/
structure AfterFetchContext where
  data : JsData
  response : Response
deriving DecidableEq, Repr

/-- `CustomFetchErrorCtx` (source lines 14-18). -/
structure CustomFetchErrorCtx where
  data : JsData
  response : Option Response
  error : ApiErrorStatus
deriving DecidableEq, Repr

/-- `UseCustomFetchOptions` (source lines 20-50); `MaybeRef` wrappers are
already unwrapped (`toValue`), mappings are insertion-ordered association
lists. -/
structure UseCustomFetchOptions where
  isBearerTokenRequired : Bool := false
  query : Option (List (String × JsInput)) := none
  json : Option (List (String × JsInput)) := none
  responseSchema : Option ZodSchema := none
  errorResponseSchema : Option ZodSchema := none

/-- Object-spread update of a header record: `{...headers, k: v}` keeps the
position of an existing key and appends a fresh one. -/
def setHeader (hs : List (String × String)) (k v : String) : List (String × String) :=
  if hs.any (fun p => p.1 == k) then hs.map (fun p => if p.1 == k then (k, v) else p)
  else hs ++ [(k, v)]

/-- Association-list lookup of a header value. -/
def lookupHeader (hs : List (String × String)) (k : String) : Option String :=
  (hs.find? (fun p => p.1 == k)).map (fun p => p.2)

/-- `noActionContext` (source line 358): the identity middleware step. -/
def noActionContext (ctx : α) : α := ctx

/-- `fetchCurryFn` (source lines 97-100) for pure steps: `fnList.reduce((acc,
fn) => fn(acc), ctx)`. -/
def fetchCurryFn (ctx : α) (fnList : List (α → α)) : α :=
  fnList.foldl (fun acc fn => fn acc) ctx

/-- The result of an effectful middleware step: accumulated `console` log
lines paired with either the next context or a thrown exception. -/
def LogExcept (α : Type) : Type := List String × Except JsError α

/-- The identity step in the effectful chain: no logs, no exception. -/
def noActionContextE (ctx : α) : LogExcept α := ([], .ok ctx)

/-- Sequencing of effectful steps: a thrown exception short-circuits the
rest of the chain; logs accumulate in order. -/
def bindLE (r : LogExcept α) (f : α → LogExcept β) : LogExcept β :=
  match r with
  | (logs, .error e) => (logs, .error e)
  | (logs, .ok a) =>
    let s := f a
    (logs ++ s.1, s.2)

/-- `fetchCurryFn` (source lines 97-100) for effectful steps: the same left
fold, with exception propagation. -/
def fetchCurryFnE (ctx : α) (fnList : List (α → LogExcept α)) : LogExcept α :=
  fnList.foldl (fun acc fn => bindLE acc fn) ([], .ok ctx)

/-- `getAuthorizationBeforeFetch` (source lines 108-127): no-op unless the
flag is set; otherwise uses the hard-coded token `"<token>"`, cancelling the
request when the token is falsy (the empty string) and injecting an
`Authorization: Bearer <token>` header otherwise. -/
def getAuthorizationBeforeFetch (isBearerTokenRequired : Bool)
    (ctx : BeforeFetchContext) : BeforeFetchContext :=
  if !isBearerTokenRequired then noActionContext ctx
  else
    let token := "<token>"
    if token = "" then { ctx with cancelled := true }
    else
      { ctx with options :=
          { ctx.options with
            headers := setHeader ctx.options.headers "Authorization" ("Bearer " ++ token) } }

/-- Modelled from the spec: the token source (`authStore` in pinia or
`localStorage`) is absent from the repository and stubbed by the constant
`"<token>"`; this variant of `getAuthorizationBeforeFetch` takes the looked-up
token as a parameter, with the same body otherwise (source lines 108-127). -/
def getAuthorizationBeforeFetchWith (token : String) (isBearerTokenRequired : Bool)
    (ctx : BeforeFetchContext) : BeforeFetchContext :=
  if !isBearerTokenRequired then noActionContext ctx
  else
    if token = "" then { ctx with cancelled := true }
    else
      { ctx with options :=
          { ctx.options with
            headers := setHeader ctx.options.headers "Authorization" ("Bearer " ++ token) } }

/-- `getQueryBeforeFetch` (source lines 135-145): no-op when no query (or an
empty query record) is given; otherwise appends the serialized query string
to the url. -/
def getQueryBeforeFetch (query : Option (List (String × JsInput)))
    (ctx : BeforeFetchContext) : BeforeFetchContext :=
  match query with
  | none => noActionContext ctx
  | some currentQuery =>
    if currentQuery.length = 0 then noActionContext ctx
    else { ctx with url := ctx.url ++ generateQueryString currentQuery }

/-- `getJsonFormatBeforeFetch` (source lines 176-189): no-op when no body is
given; otherwise sets the JSON content-type header and the cleaned,
serialized body. -/
def getJsonFormatBeforeFetch (jsonInput : Option (List (String × JsInput)))
    (ctx : BeforeFetchContext) : BeforeFetchContext :=
  match jsonInput with
  | none => noActionContext ctx
  | some currentRawData =>
    { ctx with options :=
        { headers := setHeader ctx.options.headers "Content-Type" "application/json",
          body := some (jsonStringify (removeNullishInObject currentRawData)) } }

/-- `getBeforeFetch` (source lines 82-90): the before-request chain — auth
injection, query attachment, body formatting, folded left to right. -/
def getBeforeFetch (options : UseCustomFetchOptions)
    (ctx : BeforeFetchContext) : BeforeFetchContext :=
  fetchCurryFn ctx
    [getAuthorizationBeforeFetch options.isBearerTokenRequired,
     getQueryBeforeFetch options.query,
     getJsonFormatBeforeFetch options.json]

/-- Modelled from the spec: `getBeforeFetch` with the stubbed token source
replaced by an explicit token parameter (see
`getAuthorizationBeforeFetchWith`). -/
def getBeforeFetchWith (token : String) (options : UseCustomFetchOptions)
    (ctx : BeforeFetchContext) : BeforeFetchContext :=
  fetchCurryFn ctx
    [getAuthorizationBeforeFetchWith token options.isBearerTokenRequired,
     getQueryBeforeFetch options.query,
     getJsonFormatBeforeFetch options.json]

/-- `responseSchemaAfterFetch` (source lines 245-260): when a success schema
is declared and the response is ok, validate the parsed data; on mismatch,
log outside production mode and throw `TypeError(TYPE_ERROR)`.  `mode` is
`import.meta.env.MODE`. -/
def responseSchemaAfterFetch (responseSchema : Option ZodSchema) (mode : String)
    (ctx : AfterFetchContext) : LogExcept AfterFetchContext :=
  match responseSchema with
  | none => noActionContextE ctx
  | some schema =>
    if !ctx.response.ok then noActionContextE ctx
    else if schema ctx.data then ([], .ok ctx)
    else
      ((if mode ≠ "production" then ["[api response] type error"] else []),
       .error (.typeError ApiErrorStatus.TYPE_ERROR.value))

/-- `errorSchemaAfterFetch` (source lines 222-237): when an error schema is
declared and the response is not ok, validate the parsed data; on mismatch,
log outside production mode and throw `TypeError(TYPE_ERROR)`. -/
def errorSchemaAfterFetch (errorResponseSchema : Option ZodSchema) (mode : String)
    (ctx : AfterFetchContext) : LogExcept AfterFetchContext :=
  match errorResponseSchema with
  | none => noActionContextE ctx
  | some schema =>
    if ctx.response.ok then noActionContextE ctx
    else if schema ctx.data then ([], .ok ctx)
    else
      ((if mode ≠ "production" then ["[api error] type error"] else []),
       .error (.typeError ApiErrorStatus.TYPE_ERROR.value))

/-- `getAfterFetch` (source lines 207-214): the after-response chain —
success-schema validation then error-schema validation. -/
def getAfterFetch (options : UseCustomFetchOptions) (mode : String)
    (ctx : AfterFetchContext) : LogExcept AfterFetchContext :=
  fetchCurryFnE ctx
    [responseSchemaAfterFetch options.responseSchema mode,
     errorSchemaAfterFetch options.errorResponseSchema mode]

/-- `typeErrorOnFetchError` (source lines 288-296): classifies a
`TYPE_ERROR` context; both branches return the context unchanged. -/
def typeErrorOnFetchError (ctx : CustomFetchErrorCtx) : LogExcept CustomFetchErrorCtx :=
  if ctx.error = ApiErrorStatus.TYPE_ERROR then ([], .ok ctx)
  else ([], .ok ctx)

/-- `timeOutErrorOnFetchError` (source lines 303-311): classifies an
`ABORT_ERROR` context; both branches return the context unchanged. -/
def timeOutErrorOnFetchError (ctx : CustomFetchErrorCtx) : LogExcept CustomFetchErrorCtx :=
  if ctx.error = ApiErrorStatus.ABORT_ERROR then ([], .ok ctx)
  else ([], .ok ctx)

/-- `responseNullOnFetchError` (source lines 318-327): classifies a
null-response (transport failure) context; both branches return the context
unchanged. -/
def responseNullOnFetchError (ctx : CustomFetchErrorCtx) : LogExcept CustomFetchErrorCtx :=
  if ctx.response = none then ([], .ok ctx)
  else ([], .ok ctx)

/-- The `responseData` local of `errorSchemaOnFetchError` (source line 338):
`typeof ctx.data === "string" ? JSON.parse(ctx.data) : ctx.data` — string
data goes through `JSON.parse` (which throws on invalid JSON), any other
value is used as is. -/
def errorHookResponseData (d : JsData) : Except JsError JsData :=
  match d with
  | .str s =>
    match jsonParse s with
    | some v => .ok v
    | none => .error (.parseError "Unexpected end of JSON input")
  | d => .ok d

/-- `errorSchemaOnFetchError` (source lines 335-350): when an error schema
is declared, parse string data with `JSON.parse` (which throws on invalid
JSON), validate against the schema, and on mismatch log outside production
mode; the context is returned unchanged in every non-throwing case. -/
def errorSchemaOnFetchError (errorResponseSchema : Option ZodSchema) (mode : String)
    (ctx : CustomFetchErrorCtx) : LogExcept CustomFetchErrorCtx :=
  match errorResponseSchema with
  | none => noActionContextE ctx
  | some schema =>
    match errorHookResponseData ctx.data with
    | .error e => ([], .error e)
    | .ok responseData =>
      if schema responseData then ([], .ok ctx)
      else
        ((if mode ≠ "production" then ["[api error] type error"] else []), .ok ctx)

/-- `getOnFetchError` (source lines 270-281): the error-hook chain —
type-error, timeout/abort and null-response classification, then
error-schema validation. -/
def getOnFetchError (options : UseCustomFetchOptions) (mode : String)
    (ctx : CustomFetchErrorCtx) : LogExcept CustomFetchErrorCtx :=
  fetchCurryFnE ctx
    [typeErrorOnFetchError,
     timeOutErrorOnFetchError,
     responseNullOnFetchError,
     errorSchemaOnFetchError options.errorResponseSchema mode]

namespace OldUseCustomFetch

/-- The older appended module's `generateQueryString` (source lines 474-489),
over `Record<string, any>`: the accumulated `(key, value)` pairs of its
`query.append` calls, translated independently of the current module's copy. -/
def collectParams (queryData : List (String × JsInput)) : List (String × String) :=
  queryData.flatMap (fun kv =>
    match kv.2 with
    | .arr xs => xs.map (fun el => (kv.1, jsToString el))
    | .prim p => if truthy p then [(kv.1, jsToString p)] else []
    | .null => []
    | .undefined => [])

/-- The older appended module's `generateQueryString` (source lines 474-489):
serializes a query mapping to a query string, prefixed with `?` when
non-empty. -/
def generateQueryString (queryData : List (String × JsInput)) : String :=
  let queryString := urlSearchParamsToString (collectParams queryData)
  if queryString.length > 0 then "?" ++ queryString else ""

end OldUseCustomFetch

/-- Hex digit test for form-url decoding. -/
def isHexDigit (c : Char) : Bool :=
  c.isDigit || ('A' ≤ c && c ≤ 'F') || ('a' ≤ c && c ≤ 'f')

/-- Numeric value of a hex digit. -/
def hexVal (c : Char) : Nat :=
  if c.isDigit then c.toNat - '0'.toNat
  else if 'a' ≤ c && c ≤ 'f' then c.toNat - 'a'.toNat + 10
  else c.toNat - 'A'.toNat + 10

/-- Form-url decoding of a character list: `+` becomes a space, `%XX`
becomes the character of that byte (ASCII fragment). -/
def formUrlDecodeChars : List Char → List Char
  | [] => []
  | '+' :: rest => ' ' :: formUrlDecodeChars rest
  | '%' :: a :: b :: rest =>
    if isHexDigit a && isHexDigit b then
      Char.ofNat (16 * hexVal a + hexVal b) :: formUrlDecodeChars rest
    else '%' :: formUrlDecodeChars (a :: b :: rest)
  | c :: rest => c :: formUrlDecodeChars rest

/-- Form-url decoding of a string. -/
def formUrlDecode (s : String) : String :=
  String.mk (formUrlDecodeChars s.toList)

/-- Groups a pair list by key, preserving first-occurrence order and
appending repeated keys' values in order. -/
def groupPairs (pairs : List (String × String)) : List (String × List String) :=
  pairs.foldl (fun acc p =>
    if acc.any (fun q => q.1 == p.1) then
      acc.map (fun q => if q.1 == p.1 then (q.1, q.2 ++ [p.2]) else q)
    else acc ++ [(p.1, [p.2])]) []

/-- Splits a character list on a separator character (segments between
occurrences, like `String.splitOn` for a single character). -/
def splitOnChar (c : Char) : List Char → List (List Char)
  | [] => [[]]
  | x :: rest =>
    match splitOnChar c rest with
    | [] => if x = c then [[], []] else [[x]]
    | h :: t => if x = c then [] :: h :: t else (x :: h) :: t

/-- Splits a character list at the first occurrence of a separator: the part
before it, and the part after it when it occurs. -/
def splitFirst (c : Char) : List Char → List Char × Option (List Char)
  | [] => ([], none)
  | x :: rest =>
    if x = c then ([], some rest)
    else
      let r := splitFirst c rest
      (x :: r.1, r.2)

/-- Modelled from the spec: the round-trip property presumes a query-string
parser, which the repository does not contain.  Standard
`URLSearchParams`-style parsing: strip the leading `?`, split on `&`, split
each entry at the first `=` (no `=` gives an empty value), form-url decode
both sides, and group repeated keys into an array (a key appearing once maps
to a scalar string). -/
def parseQueryString (s : String) : List (String × JsInput) :=
  let body := match s.toList with
    | '?' :: rest => rest
    | l => l
  if body = [] then []
  else
    let pairs := (splitOnChar '&' body).map (fun part =>
      let kv := splitFirst '=' part
      (formUrlDecode (String.mk kv.1),
       match kv.2 with
       | none => ""
       | some v => formUrlDecode (String.mk v)))
    (groupPairs pairs).map (fun g =>
      match g.2 with
      | [v] => (g.1, JsInput.prim (.str v))
      | vs => (g.1, JsInput.arr (vs.map RequestInput.str)))

theorem bindLE_ok_nil (ctx : α) (f : α → LogExcept β) : bindLE ([], .ok ctx) f = f ctx := rfl

theorem bindLE_error (logs : List String) (e : JsError) (f : α → LogExcept β) :
    bindLE (logs, .error e) f = (logs, .error e) := rfl

theorem getAfterFetch_eq (opts : UseCustomFetchOptions) (mode : String)
    (ctx : AfterFetchContext) :
    getAfterFetch opts mode ctx =
      bindLE (responseSchemaAfterFetch opts.responseSchema mode ctx)
        (errorSchemaAfterFetch opts.errorResponseSchema mode) := rfl

theorem typeErrorOnFetchError_eq (ctx : CustomFetchErrorCtx) :
    typeErrorOnFetchError ctx = ([], .ok ctx) := by
  unfold typeErrorOnFetchError; exact ite_self _

theorem timeOutErrorOnFetchError_eq (ctx : CustomFetchErrorCtx) :
    timeOutErrorOnFetchError ctx = ([], .ok ctx) := by
  unfold timeOutErrorOnFetchError; exact ite_self _

theorem responseNullOnFetchError_eq (ctx : CustomFetchErrorCtx) :
    responseNullOnFetchError ctx = ([], .ok ctx) := by
  unfold responseNullOnFetchError; exact ite_self _

theorem getOnFetchError_eq (opts : UseCustomFetchOptions) (mode : String)
    (ctx : CustomFetchErrorCtx) :
    getOnFetchError opts mode ctx =
      errorSchemaOnFetchError opts.errorResponseSchema mode ctx := by
  unfold getOnFetchError fetchCurryFnE
  simp only [List.foldl]
  rw [bindLE_ok_nil, typeErrorOnFetchError_eq, bindLE_ok_nil, timeOutErrorOnFetchError_eq,
    bindLE_ok_nil, responseNullOnFetchError_eq, bindLE_ok_nil]

theorem lookupHeader_cons (a : String × String) (t : List (String × String)) (k : String) :
    lookupHeader (a :: t) k = if a.1 == k then some a.2 else lookupHeader t k := by
  unfold lookupHeader
  rw [List.find?_cons]
  cases h : a.1 == k <;> simp [h]

theorem lookupHeader_map_setOne (hs : List (String × String)) (k k' v : String)
    (h : (k' == k) = false) :
    lookupHeader (hs.map (fun p => if p.1 == k' then (k', v) else p)) k = lookupHeader hs k := by
  induction hs with
  | nil => rfl
  | cons a t ih =>
    rw [List.map_cons, lookupHeader_cons, lookupHeader_cons, ih]
    by_cases ha : (a.1 == k') = true
    · have ha' : a.1 = k' := by simpa [beq_iff_eq] using ha
      simp [ha, ha', h]
    · simp [ha]

theorem lookupHeader_append_single (hs : List (String × String)) (k k' v : String)
    (h : (k' == k) = false) :
    lookupHeader (hs ++ [(k', v)]) k = lookupHeader hs k := by
  induction hs with
  | nil => simp [lookupHeader, List.find?, h]
  | cons a t ih => rw [List.cons_append, lookupHeader_cons, lookupHeader_cons, ih]

theorem lookupHeader_setHeader_ne (hs : List (String × String)) (k k' v : String)
    (h : (k' == k) = false) :
    lookupHeader (setHeader hs k' v) k = lookupHeader hs k := by
  unfold setHeader
  split
  · exact lookupHeader_map_setOne hs k k' v h
  · exact lookupHeader_append_single hs k k' v h

theorem lookupHeader_map_self (hs : List (String × String)) (k v : String)
    (hany : hs.any (fun p => p.1 == k) = true) :
    lookupHeader (hs.map (fun p => if p.1 == k then (k, v) else p)) k = some v := by
  induction hs with
  | nil => simp at hany
  | cons a t ih =>
    rw [List.map_cons, lookupHeader_cons]
    by_cases ha : (a.1 == k) = true
    · simp [ha]
    · have ht : t.any (fun p => p.1 == k) = true := by
        simpa [List.any_cons, ha] using hany
      have ha' : (a.1 == k) = false := by simpa using ha
      rw [if_neg ha, ha']
      simpa using ih ht

theorem lookupHeader_append_self (hs : List (String × String)) (k v : String)
    (hany : hs.any (fun p => p.1 == k) = false) :
    lookupHeader (hs ++ [(k, v)]) k = some v := by
  induction hs with
  | nil => simp [lookupHeader, List.find?]
  | cons a t ih =>
    have ha : (a.1 == k) = false := by
      cases h : a.1 == k
      · rfl
      · rw [List.any_cons, h] at hany; simp at hany
    have ht : t.any (fun p => p.1 == k) = false := by
      rw [List.any_cons, ha] at hany; simpa using hany
    rw [List.cons_append, lookupHeader_cons, ha, ih ht]
    simp

theorem lookupHeader_setHeader_self (hs : List (String × String)) (k v : String) :
    lookupHeader (setHeader hs k v) k = some v := by
  unfold setHeader
  split
  case isTrue hany => exact lookupHeader_map_self hs k v hany
  case isFalse hany =>
    have h : (hs.any fun p => p.1 == k) = false := by
      cases h : hs.any fun p => p.1 == k
      · rfl
      · exact absurd h hany
    exact lookupHeader_append_self hs k v h

theorem getQueryBeforeFetch_cancelled (q : Option (List (String × JsInput)))
    (ctx : BeforeFetchContext) :
    (getQueryBeforeFetch q ctx).cancelled = ctx.cancelled := by
  cases q with
  | none => rfl
  | some qq =>
    simp only [getQueryBeforeFetch]
    split <;> rfl

theorem getQueryBeforeFetch_headers (q : Option (List (String × JsInput)))
    (ctx : BeforeFetchContext) :
    (getQueryBeforeFetch q ctx).options.headers = ctx.options.headers := by
  cases q with
  | none => rfl
  | some qq =>
    simp only [getQueryBeforeFetch]
    split <;> rfl

theorem getJsonFormatBeforeFetch_cancelled (j : Option (List (String × JsInput)))
    (ctx : BeforeFetchContext) :
    (getJsonFormatBeforeFetch j ctx).cancelled = ctx.cancelled := by
  unfold getJsonFormatBeforeFetch noActionContext
  cases j <;> rfl

theorem getJsonFormatBeforeFetch_authHeader (j : Option (List (String × JsInput)))
    (ctx : BeforeFetchContext) :
    lookupHeader (getJsonFormatBeforeFetch j ctx).options.headers "Authorization"
      = lookupHeader ctx.options.headers "Authorization" := by
  unfold getJsonFormatBeforeFetch noActionContext
  cases j with
  | none => rfl
  | some dd =>
    exact lookupHeader_setHeader_ne ctx.options.headers "Authorization" "Content-Type" _ rfl

/-- C10: the two copies of the query-string serializer — the one in the
current `useCustomFetch` module and the one in the older appended module —
are extensionally equal: for every query mapping they return the same
string. -/
theorem generateQueryString_copies_agree (q : List (String × JsInput)) :
    generateQueryString q = OldUseCustomFetch.generateQueryString q := rfl

/-- C7: serializing the mapping `{a: "1", b: ["2","3"]}` with the
query-string serializer and then parsing the resulting query string yields
back the mapping `{a: "1", b: ["2","3"]}`. -/
theorem query_string_round_trip :
    parseQueryString (generateQueryString
        [("a", JsInput.prim (.str "1")), ("b", JsInput.arr [.str "2", .str "3"])])
      = [("a", JsInput.prim (.str "1")), ("b", JsInput.arr [.str "2", .str "3"])] := by
  rfl

/-- C9: in the auth-injection step the token is the hard-coded non-empty
constant string `"<token>"`, so the missing-token cancel branch is
unreachable: for every before-request context, when `isBearerTokenRequired`
is true, `cancel` is never called (the cancellation state is untouched by the
whole before-request chain) and an `Authorization: Bearer <token>` header is
always injected. -/
theorem hardcoded_token_never_cancels (q j : Option (List (String × JsInput)))
    (rs es : Option ZodSchema) (ctx : BeforeFetchContext) :
    (getBeforeFetch ⟨true, q, j, rs, es⟩ ctx).cancelled = ctx.cancelled ∧
    lookupHeader (getBeforeFetch ⟨true, q, j, rs, es⟩ ctx).options.headers "Authorization"
      = some "Bearer <token>" := by
  have hauth : getAuthorizationBeforeFetch true ctx =
      { ctx with options :=
          { ctx.options with
            headers := setHeader ctx.options.headers "Authorization" ("Bearer " ++ "<token>") } } := by
    unfold getAuthorizationBeforeFetch
    simp
  have hchain : getBeforeFetch ⟨true, q, j, rs, es⟩ ctx =
      getJsonFormatBeforeFetch j (getQueryBeforeFetch q (getAuthorizationBeforeFetch true ctx)) := rfl
  rw [hchain, hauth]
  constructor
  · rw [getJsonFormatBeforeFetch_cancelled, getQueryBeforeFetch_cancelled]
  · rw [getJsonFormatBeforeFetch_authHeader, getQueryBeforeFetch_headers]
    exact lookupHeader_setHeader_self ctx.options.headers "Authorization" ("Bearer " ++ "<token>")

/-- C2: for every before-request context, when the auth flag
(`isBearerTokenRequired`) is true and no bearer token is available (the
stubbed token source, made explicit as a parameter, yields the falsy empty
string), the before-request chain invokes the context's cancel operation and
returns the context without adding an `Authorization` header, so no network
call is issued. -/
theorem missing_token_cancels (q j : Option (List (String × JsInput)))
    (rs es : Option ZodSchema) (ctx : BeforeFetchContext)
    (h : lookupHeader ctx.options.headers "Authorization" = none) :
    (getBeforeFetchWith "" ⟨true, q, j, rs, es⟩ ctx).cancelled = true ∧
    lookupHeader (getBeforeFetchWith "" ⟨true, q, j, rs, es⟩ ctx).options.headers "Authorization"
      = none := by
  have hauth : getAuthorizationBeforeFetchWith "" true ctx = { ctx with cancelled := true } := by
    unfold getAuthorizationBeforeFetchWith
    simp
  have hchain : getBeforeFetchWith "" ⟨true, q, j, rs, es⟩ ctx =
      getJsonFormatBeforeFetch j (getQueryBeforeFetch q (getAuthorizationBeforeFetchWith "" true ctx)) := rfl
  rw [hchain, hauth]
  constructor
  · rw [getJsonFormatBeforeFetch_cancelled, getQueryBeforeFetch_cancelled]
  · rw [getJsonFormatBeforeFetch_authHeader, getQueryBeforeFetch_headers]
    exact h

/-- Witness for C2: a fresh context with no headers, auth required and the
token source empty — the chain cancels and injects no `Authorization`
header. -/
theorem missing_token_cancels_witness :
    (getBeforeFetchWith "" ⟨true, none, none, none, none⟩ ⟨"", ⟨[], none⟩, false⟩).cancelled = true ∧
    lookupHeader (getBeforeFetchWith "" ⟨true, none, none, none, none⟩
        ⟨"", ⟨[], none⟩, false⟩).options.headers "Authorization" = none :=
  missing_token_cancels none none none none ⟨"", ⟨[], none⟩, false⟩ rfl

theorem collectParams_cons (a : String × JsInput) (t : List (String × JsInput)) :
    collectParams (a :: t) = collectParams [a] ++ collectParams t := by
  simp [collectParams]

theorem collectParams_eq_nil_of_nullish (q : List (String × JsInput))
    (h : ∀ p ∈ q, p.2 = JsInput.prim (.str "") ∨ p.2 = JsInput.null ∨ p.2 = JsInput.undefined) :
    collectParams q = [] := by
  induction q with
  | nil => rfl
  | cons a t ih =>
    have ha := h a (by simp)
    have ht : collectParams t = [] := ih (fun p hp => h p (by simp [hp]))
    rw [collectParams_cons, ht, List.append_nil]
    rcases ha with h1 | h1 | h1 <;> simp [collectParams, h1, truthy]

/-- C5: for every mapping whose values are all empty-string, null, or
undefined, the query-string serializer returns the empty string (no `?`
prefix) and the body cleaner returns the empty mapping, giving an empty JSON
body payload (`"{}"`). -/
theorem nullish_only_mapping_empty (q : List (String × JsInput))
    (h : ∀ p ∈ q, p.2 = JsInput.prim (.str "") ∨ p.2 = JsInput.null ∨ p.2 = JsInput.undefined) :
    generateQueryString q = "" ∧ removeNullishInObject q = [] ∧
    jsonStringify (removeNullishInObject q) = "{}" := by
  have hc := collectParams_eq_nil_of_nullish q h
  have hr : removeNullishInObject q = [] := by
    unfold removeNullishInObject
    rw [List.filter_eq_nil_iff]
    intro p hp
    rcases h p hp with h1 | h1 | h1 <;> simp [h1]
  refine ⟨?_, hr, by rw [hr]; rfl⟩
  unfold generateQueryString
  rw [hc]
  rfl

/-- Witness for C5: a three-entry mapping holding an empty string, a null
and an undefined value serializes to the empty query string and cleans to
the empty body. -/
theorem nullish_only_mapping_empty_witness :
    generateQueryString
        [("a", JsInput.prim (.str "")), ("b", JsInput.null), ("c", JsInput.undefined)] = "" ∧
    removeNullishInObject
        [("a", JsInput.prim (.str "")), ("b", JsInput.null), ("c", JsInput.undefined)] = [] ∧
    jsonStringify (removeNullishInObject
        [("a", JsInput.prim (.str "")), ("b", JsInput.null), ("c", JsInput.undefined)]) = "{}" :=
  nullish_only_mapping_empty
    [("a", JsInput.prim (.str "")), ("b", JsInput.null), ("c", JsInput.undefined)]
    (by decide)

theorem entryParams_filter_ne (kv : String × JsInput) (k : String)
    (h : (kv.1 == k) = false) :
    (collectParams [kv]).filter (fun p => p.1 == k) = [] := by
  obtain ⟨k', v⟩ := kv
  simp only at h
  cases v with
  | arr xs => simp [collectParams, List.filter_map, Function.comp, h]
  | prim p =>
    simp only [collectParams, List.flatMap_cons, List.flatMap_nil, List.append_nil]
    split <;> simp [h]
  | null => rfl
  | undefined => rfl

theorem collectParams_filter_not_mem (q : List (String × JsInput)) (k : String)
    (h : k ∉ q.map Prod.fst) :
    (collectParams q).filter (fun p => p.1 == k) = [] := by
  induction q with
  | nil => rfl
  | cons a t ih =>
    have hk : (a.1 == k) = false := by
      rw [beq_eq_false_iff_ne]
      intro e
      exact h (by simp [e])
    have ht : k ∉ t.map Prod.fst := fun hm => h (by simp [hm])
    rw [collectParams_cons, List.filter_append, entryParams_filter_ne a k hk, ih ht,
      List.append_nil]

/-- C4: for every mapping (with the unique keys of a JavaScript record) that
contains an array value under some key, the query-string serializer produces
one query parameter per array element under that same key, in the array's
order. -/
theorem array_values_one_param_per_element (q : List (String × JsInput)) (k : String)
    (xs : List RequestInput)
    (hnd : (q.map Prod.fst).Nodup) (hmem : (k, JsInput.arr xs) ∈ q) :
    (collectParams q).filter (fun p => p.1 == k) = xs.map (fun el => (k, jsToString el)) := by
  induction q with
  | nil => cases hmem
  | cons a t ih =>
    rw [List.map_cons, List.nodup_cons] at hnd
    obtain ⟨hna, hnt⟩ := hnd
    rw [collectParams_cons, List.filter_append]
    rcases List.mem_cons.mp hmem with heq | hmem'
    · rw [← heq]
      rw [← heq] at hna
      rw [collectParams_filter_not_mem t k hna, List.append_nil]
      simp [collectParams, List.filter_map, Function.comp_def, List.filter_true]
    · have hk : k ∈ t.map Prod.fst := by
        have : (k, JsInput.arr xs).1 ∈ t.map Prod.fst := List.mem_map_of_mem Prod.fst hmem'
        simpa using this
      have hak : (a.1 == k) = false := by
        rw [beq_eq_false_iff_ne]
        intro e
        exact hna (e ▸ hk)
      rw [entryParams_filter_ne a k hak, List.nil_append]
      exact ih hnt hmem'

/-- Witness for C4: in `{a: "1", b: ["2","3"]}` the parameters under key `b`
are exactly one per array element, in order. -/
theorem array_values_one_param_per_element_witness :
    (collectParams [("a", JsInput.prim (.str "1")),
        ("b", JsInput.arr [.str "2", .str "3"])]).filter (fun p => p.1 == "b")
      = [RequestInput.str "2", RequestInput.str "3"].map (fun el => ("b", jsToString el)) :=
  array_values_one_param_per_element
    [("a", JsInput.prim (.str "1")), ("b", JsInput.arr [.str "2", .str "3"])]
    "b" [.str "2", .str "3"] (by decide) (by decide)

/-- C6: given a declared success schema, for every response with ok status
whose parsed data does not satisfy the schema, the after-response chain
raises a type-validation failure (a `TypeError` carrying the `TYPE_ERROR`
tag) that aborts normal completion, and when the run mode is not production
it logs the validation diagnostic. -/
theorem response_schema_mismatch_raises (schema : ZodSchema) (opts : UseCustomFetchOptions)
    (mode : String) (d : JsData)
    (hs : opts.responseSchema = some schema) (hmis : schema d = false) :
    (getAfterFetch opts mode ⟨d, ⟨true⟩⟩).2 = .error (.typeError ApiErrorStatus.TYPE_ERROR.value)
    ∧ (mode ≠ "production" →
        (getAfterFetch opts mode ⟨d, ⟨true⟩⟩).1 = ["[api response] type error"]) := by
  have hstep : responseSchemaAfterFetch (some schema) mode ⟨d, ⟨true⟩⟩ =
      ((if mode ≠ "production" then ["[api response] type error"] else []),
       .error (.typeError ApiErrorStatus.TYPE_ERROR.value)) := by
    unfold responseSchemaAfterFetch
    simp [hmis]
  rw [getAfterFetch_eq, hs, hstep, bindLE_error]
  exact ⟨rfl, fun hm => by rw [if_pos hm]⟩

/-- Witness for C6: a schema that rejects everything, an ok response and
development mode — the chain throws the `TYPE_ERROR` `TypeError` and logs
the diagnostic. -/
theorem response_schema_mismatch_raises_witness :
    (getAfterFetch { responseSchema := some (fun _ => false) } "development"
        ⟨.null, ⟨true⟩⟩).2 = .error (.typeError ApiErrorStatus.TYPE_ERROR.value)
    ∧ ("development" ≠ "production" →
        (getAfterFetch { responseSchema := some (fun _ => false) } "development"
          ⟨.null, ⟨true⟩⟩).1 = ["[api response] type error"]) :=
  response_schema_mismatch_raises (fun _ => false) { responseSchema := some (fun _ => false) }
    "development" .null rfl rfl

/-- Counterexample to C1 as stated: on a completed response with failure
status validated against a declared error schema, a mismatch does NOT merely
log — the after-response chain throws `TypeError(TYPE_ERROR)` instead of
returning the context. -/
theorem error_schema_after_fetch_escalates_cex :
    getAfterFetch { errorResponseSchema := some (fun _ => false) } "development"
        ⟨.null, ⟨false⟩⟩
      = (["[api error] type error"], .error (.typeError ApiErrorStatus.TYPE_ERROR.value)) := rfl

/-- C1 (amended): for every response data value, in the after-response chain
a mismatch of a non-ok response against the declared error schema logs the
diagnostic when the mode is not production and raises `TypeError(TYPE_ERROR)`
— it escalates exactly like the success path.  Only the error-hook
validation (`errorSchemaOnFetchError`) treats a mismatch non-fatally:
whenever the value it actually validates (the `JSON.parse` of string data,
the data itself otherwise) fails the schema, it logs the diagnostic when the
mode is not production and returns the context to the caller unchanged. -/
theorem error_schema_after_raises_hook_passes (schema : ZodSchema) (mode : String)
    (d : JsData) (r : Option Response) (e : ApiErrorStatus) :
    (schema d = false →
      errorSchemaAfterFetch (some schema) mode ⟨d, ⟨false⟩⟩
        = ((if mode ≠ "production" then ["[api error] type error"] else []),
           .error (.typeError ApiErrorStatus.TYPE_ERROR.value)))
    ∧ (∀ v, errorHookResponseData d = Except.ok v → schema v = false →
        errorSchemaOnFetchError (some schema) mode ⟨d, r, e⟩
          = ((if mode ≠ "production" then ["[api error] type error"] else []),
             .ok ⟨d, r, e⟩)) := by
  constructor
  · intro hmis
    unfold errorSchemaAfterFetch
    simp [hmis]
  · intro v hv hmisv
    unfold errorSchemaOnFetchError
    simp [hv, hmisv]

/-- Witness for C1's amended claim: an always-rejecting schema on null data
in development mode — the after-fetch step logs and throws, the error-hook
step logs and returns the context. -/
theorem error_schema_after_raises_hook_passes_witness :
    errorSchemaAfterFetch (some (fun _ => false)) "development" ⟨.null, ⟨false⟩⟩
        = (["[api error] type error"], .error (.typeError ApiErrorStatus.TYPE_ERROR.value))
    ∧ errorSchemaOnFetchError (some (fun _ => false)) "development"
        ⟨.null, none, .TYPE_ERROR⟩
        = (["[api error] type error"], .ok ⟨.null, none, .TYPE_ERROR⟩) := by
  constructor
  · have h1 := (error_schema_after_raises_hook_passes (fun _ => false) "development" .null
      none .TYPE_ERROR).1 rfl
    rwa [if_pos (by decide)] at h1
  · have h2 := (error_schema_after_raises_hook_passes (fun _ => false) "development" .null
      none .TYPE_ERROR).2 .null rfl rfl
    rwa [if_pos (by decide)] at h2

/-- Counterexample to C3 as stated: the error-hook chain CAN raise — when
the context's data is a string that is not valid JSON (here the empty
string, on which `JSON.parse` throws) and an error schema is declared, the
error-schema step propagates the parse exception. -/
theorem error_hook_raises_cex :
    (getOnFetchError { errorResponseSchema := some (fun _ => true) } "production"
        ⟨.str "", none, .ABORT_ERROR⟩).2
      = .error (.parseError "Unexpected end of JSON input") := rfl

/-- C3 (amended): for every error context whose data is not a string (so
`JSON.parse` is not consulted) and every options value, the error-hook chain
performs no control-flow change other than logging: it returns the context
unchanged — data, response and error fields untouched — and does not
raise. -/
theorem error_hook_passthrough (opts : UseCustomFetchOptions) (mode : String)
    (ctx : CustomFetchErrorCtx) (hstr : ctx.data.isString = false) :
    (getOnFetchError opts mode ctx).2 = .ok ctx := by
  rw [getOnFetchError_eq]
  unfold errorSchemaOnFetchError
  cases opts.errorResponseSchema with
  | none => rfl
  | some schema =>
    obtain ⟨d, r, e⟩ := ctx
    cases d with
    | str s => simp [JsData.isString] at hstr
    | num n => by_cases h : schema (.num n) <;> simp [errorHookResponseData, h]
    | bool b => by_cases h : schema (.bool b) <;> simp [errorHookResponseData, h]
    | null => by_cases h : schema .null <;> simp [errorHookResponseData, h]

/-- Witness for C3's amended claim: default options, development mode and a
null-data abort context pass through the error-hook chain unchanged. -/
theorem error_hook_passthrough_witness :
    (getOnFetchError {} "development" ⟨.null, none, .ABORT_ERROR⟩).2
      = .ok ⟨.null, none, .ABORT_ERROR⟩ :=
  error_hook_passthrough {} "development" ⟨.null, none, .ABORT_ERROR⟩ rfl

theorem bindLE_snd_ok (r : LogExcept α) (f : α → LogExcept β) (a : α)
    (h : r.2 = .ok a) : (bindLE r f).2 = (f a).2 := by
  obtain ⟨l, x⟩ := r
  simp only at h
  subst h
  rfl

theorem bindLE_snd_error (r : LogExcept α) (f : α → LogExcept β) (e : JsError)
    (h : r.2 = .error e) : (bindLE r f).2 = .error e := by
  obtain ⟨l, x⟩ := r
  simp only at h
  subst h
  rfl

theorem responseSchemaAfterFetch_cases (rs : Option ZodSchema) (mode : String)
    (ctx : AfterFetchContext) :
    (responseSchemaAfterFetch rs mode ctx).2 = .ok ctx ∨
    (responseSchemaAfterFetch rs mode ctx).2
      = .error (.typeError ApiErrorStatus.TYPE_ERROR.value) := by
  unfold responseSchemaAfterFetch
  split
  · exact .inl rfl
  · split
    · exact .inl rfl
    · split
      · exact .inl rfl
      · exact .inr rfl

theorem errorSchemaAfterFetch_cases (es : Option ZodSchema) (mode : String)
    (ctx : AfterFetchContext) :
    (errorSchemaAfterFetch es mode ctx).2 = .ok ctx ∨
    (errorSchemaAfterFetch es mode ctx).2
      = .error (.typeError ApiErrorStatus.TYPE_ERROR.value) := by
  unfold errorSchemaAfterFetch
  split
  · exact .inl rfl
  · split
    · exact .inl rfl
    · split
      · exact .inl rfl
      · exact .inr rfl

theorem getAfterFetch_ok_or_typeError (opts : UseCustomFetchOptions) (mode : String)
    (actx : AfterFetchContext) :
    (getAfterFetch opts mode actx).2 = .ok actx ∨
    (getAfterFetch opts mode actx).2 = .error (.typeError ApiErrorStatus.TYPE_ERROR.value) := by
  rw [getAfterFetch_eq]
  rcases responseSchemaAfterFetch_cases opts.responseSchema mode actx with h1 | h1
  · rw [bindLE_snd_ok _ _ actx h1]
    exact errorSchemaAfterFetch_cases opts.errorResponseSchema mode actx
  · rw [bindLE_snd_error _ _ _ h1]
    exact .inr rfl

/-- C8: the `SERVER_ERROR` status is never produced or consumed.  First
conjunct: the error-hook chain's behaviour is invariant in the incoming
error tag — no step branches on it (in particular none on `SERVER_ERROR`) —
and the returned context merely carries the incoming tag through, so no step
assigns `SERVER_ERROR` (or anything else) to the error field.  Second
conjunct: any context the chain returns has exactly the incoming error tag.
Third conjunct: the after-response chain (whose contexts carry no error
field) either passes the context through or throws the `TYPE_ERROR`
`TypeError`, never anything mentioning `SERVER_ERROR`. -/
theorem server_error_never_produced_or_consumed (opts : UseCustomFetchOptions)
    (mode : String) (d : JsData) (r : Option Response) (e e' : ApiErrorStatus)
    (actx : AfterFetchContext) :
    getOnFetchError opts mode ⟨d, r, e⟩ =
      ((getOnFetchError opts mode ⟨d, r, e'⟩).1,
       Except.map (fun c => { c with error := e }) (getOnFetchError opts mode ⟨d, r, e'⟩).2)
    ∧ Except.map (fun c => c.error) (getOnFetchError opts mode ⟨d, r, e⟩).2
        = Except.map (fun _ => e) (getOnFetchError opts mode ⟨d, r, e⟩).2
    ∧ ((getAfterFetch opts mode actx).2 = .ok actx ∨
       (getAfterFetch opts mode actx).2
         = .error (.typeError ApiErrorStatus.TYPE_ERROR.value)) := by
  refine ⟨?_, ?_, getAfterFetch_ok_or_typeError opts mode actx⟩
  · simp only [getOnFetchError_eq]
    unfold errorSchemaOnFetchError
    cases opts.errorResponseSchema with
    | none => simp [noActionContextE, Except.map]
    | some schema =>
      cases d with
      | str s =>
        cases hj : jsonParse s with
        | none => simp [errorHookResponseData, hj, Except.map]
        | some v => by_cases h : schema v <;> simp [errorHookResponseData, hj, h, Except.map]
      | num n => by_cases h : schema (.num n) <;> simp [errorHookResponseData, h, Except.map]
      | bool b => by_cases h : schema (.bool b) <;> simp [errorHookResponseData, h, Except.map]
      | null => by_cases h : schema .null <;> simp [errorHookResponseData, h, Except.map]
  · simp only [getOnFetchError_eq]
    unfold errorSchemaOnFetchError
    cases opts.errorResponseSchema with
    | none => rfl
    | some schema =>
      cases d with
      | str s =>
        cases hj : jsonParse s with
        | none => simp [errorHookResponseData, hj, Except.map]
        | some v => by_cases h : schema v <;> simp [errorHookResponseData, hj, h, Except.map]
      | num n => by_cases h : schema (.num n) <;> simp [errorHookResponseData, h, Except.map]
      | bool b => by_cases h : schema (.bool b) <;> simp [errorHookResponseData, h, Except.map]
      | null => by_cases h : schema .null <;> simp [errorHookResponseData, h, Except.map]
